import Mathlib

/-!
Verification of the dual-pane markdown editor's preview-synchronization core.

The definitions below are shallow embeddings of the TypeScript source:
* `commitStep`            — the commit guard of `MarkdownPreview.render`
  (`newHtml !== lastRenderedHtmlRef.current`), with counters recording the
  observable side effects (DOM replacement, scroll writes, auxiliary
  component initialization).
* `handlePreviewScroll`   — `EditorPane.handlePreviewScroll`: maps a preview
  scroll event to an editor scroll offset.  DOM `scrollHeight`/`clientHeight`
  are CSSOM `long` values, hence `Int`; `scrollTop` is a `double`, modelled
  as `Rat`.
* `updateScrollability`   — the `useEffect` on `[previewContent]` that flips
  the editor's `handleMouseWheel`/`alwaysConsumeMouseWheel` options based on
  whether the preview pane is scrollable.
-/

namespace MdEditor

/-- View state committed by `MarkdownPreview.render` step 4: the wrapper's
innerHTML, the pane scroll offset, the last committed HTML (the ref the
commit guard compares against), and counters for the observable side
effects of a commit. -/
structure ViewState where
  wrapperHtml : String
  scrollTop : Rat
  lastRenderedHtml : String
  auxInitCount : Nat
  domReplaceCount : Nat
  scrollWriteCount : Nat
deriving DecidableEq, Repr

/-- Embeds the commit block of `MarkdownPreview.render` (step 4): if the
newly produced HTML differs from `lastRenderedHtmlRef.current`, replace the
wrapper's innerHTML, restore the recorded scroll offset, initialize
auxiliary components (ECharts, tablesort), restore the scroll offset again,
and record the new HTML; otherwise do nothing. -/
def commitStep (s : ViewState) (newHtml : String) (currentScroll : Rat) : ViewState :=
  if newHtml ≠ s.lastRenderedHtml then
    { wrapperHtml := newHtml
      scrollTop := currentScroll
      lastRenderedHtml := newHtml
      auxInitCount := s.auxInitCount + 1
      domReplaceCount := s.domReplaceCount + 1
      scrollWriteCount := s.scrollWriteCount + 2 }
  else s

/-- Embeds `EditorPane.handlePreviewScroll`: computes the preview's
scrollable range `scrollHeight - clientHeight`; if it is not positive the
handler returns without touching the editor (`none`); otherwise the editor
scroll top is set to
`(previewScrollTop / max range 1) * (editorScrollHeight - layoutHeight)`. -/
def handlePreviewScroll (previewScrollTop : Rat) (scrollHeight clientHeight : Int)
    (editorScrollHeight editorLayoutHeight : Rat) : Option Rat :=
  let previewScrollRange : Rat := (scrollHeight : Rat) - (clientHeight : Rat)
  if previewScrollRange ≤ 0 then none
  else
    let percentage := previewScrollTop / max previewScrollRange 1
    some (percentage * (editorScrollHeight - editorLayoutHeight))

/-- The editor scrollbar options written by the scrollability effect. -/
structure WheelOptions where
  handleMouseWheel : Bool
  alwaysConsumeMouseWheel : Bool
deriving DecidableEq, Repr

/-- Embeds the `React.useEffect` on `[previewContent]` in `EditorPane`:
`scrollable := scrollHeight > clientHeight`, then
`updateOptions { scrollbar := { handleMouseWheel := !scrollable,
alwaysConsumeMouseWheel := !scrollable } }`. -/
def updateScrollability (scrollHeight clientHeight : Int) : WheelOptions :=
  let scrollable := decide (clientHeight < scrollHeight)
  { handleMouseWheel := !scrollable, alwaysConsumeMouseWheel := !scrollable }

/-- The scrollability effect re-runs on every rendered-content change; a
sequence of content commits with measured heights `hs` leaves the options
produced by the latest heights. -/
def runScrollabilityEffects (hs : List (Int × Int)) (o : WheelOptions) : WheelOptions :=
  hs.foldl (fun _ p => updateScrollability p.1 p.2) o

lemma runScrollabilityEffects_getLast (hs : List (Int × Int)) (hne : hs ≠ [])
    (o : WheelOptions) :
    runScrollabilityEffects hs o =
      updateScrollability (hs.getLast hne).1 (hs.getLast hne).2 := by
  induction hs generalizing o with
  | nil => exact absurd rfl hne
  | cons p t ih =>
    cases t with
    | nil => rfl
    | cons q r =>
      rw [List.getLast_cons (by simp)]
      exact ih (by simp) (updateScrollability p.1 p.2)

/-- Claim C10: if a render pass produces HTML identical to the last
committed HTML, the commit step is a no-op on the committed view state (no
DOM replacement, no scroll write, no auxiliary re-initialization), and
committing the same rendered content twice equals committing it once. -/
theorem c10_commit_skip_identical (s : ViewState) (h h' : String) (c c' c'' : Rat)
    (hh : h = s.lastRenderedHtml) :
    commitStep s h c = s ∧
    commitStep (commitStep s h' c') h' c'' = commitStep s h' c' := by
  constructor
  · simp [commitStep, hh]
  · by_cases hne : h' = s.lastRenderedHtml
    · simp [commitStep, hne]
    · simp [commitStep, hne]

/-- Witness for C10 at a concrete view state. -/
theorem c10_commit_skip_identical_witness :
    commitStep ⟨"<p>x</p>", 0, "<p>h</p>", 3, 3, 6⟩ "<p>h</p>" 5 =
      (⟨"<p>x</p>", 0, "<p>h</p>", 3, 3, 6⟩ : ViewState) ∧
    commitStep (commitStep ⟨"<p>x</p>", 0, "<p>h</p>", 3, 3, 6⟩ "<p>y</p>" 1) "<p>y</p>" 2 =
      commitStep ⟨"<p>x</p>", 0, "<p>h</p>", 3, 3, 6⟩ "<p>y</p>" 1 :=
  c10_commit_skip_identical ⟨"<p>x</p>", 0, "<p>h</p>", 3, 3, 6⟩ "<p>h</p>" "<p>y</p>" 5 1 2 rfl

/-- Claim C2: for every preview scroll event with a scrollable rendered pane
(content height exceeds viewport height), the editor scroll offset is set to
`f * (editorScrollHeight - editorViewportHeight)` with
`f = previewScrollTop / (previewScrollHeight - previewClientHeight)`; in
particular viewport 500, content 1000, scrollTop 250, editor range 800
yields 400.  (DOM heights are integers, so a scrollable pane has range ≥ 1
and the `max range 1` in the source equals the range.) -/
theorem c2_preview_scroll_fraction (previewScrollTop : Rat)
    (scrollHeight clientHeight : Int) (editorScrollHeight editorLayoutHeight : Rat)
    (hscrollable : clientHeight < scrollHeight) :
    handlePreviewScroll previewScrollTop scrollHeight clientHeight
        editorScrollHeight editorLayoutHeight =
      some (previewScrollTop / ((scrollHeight : Rat) - (clientHeight : Rat)) *
        (editorScrollHeight - editorLayoutHeight)) ∧
    handlePreviewScroll 250 1000 500 1000 200 = some 400 := by
  constructor
  · have hone : (1 : Rat) ≤ (scrollHeight : Rat) - (clientHeight : Rat) := by
      have h1 : clientHeight + 1 ≤ scrollHeight := hscrollable
      have h2 : ((clientHeight + 1 : Int) : Rat) ≤ ((scrollHeight : Int) : Rat) := by
        exact_mod_cast h1
      push_cast at h2
      linarith
    have hpos : ¬ ((scrollHeight : Rat) - (clientHeight : Rat) ≤ 0) := by linarith
    simp only [handlePreviewScroll, hpos, if_false, max_eq_left hone]
  · norm_num [handlePreviewScroll]

/-- Witness for C2 at the spec scenario. -/
theorem c2_preview_scroll_fraction_witness :
    handlePreviewScroll 250 1000 500 1000 200 =
      some (250 / ((1000 : Rat) - 500) * (1000 - 200)) ∧
    handlePreviewScroll 250 1000 500 1000 200 = some 400 :=
  c2_preview_scroll_fraction 250 1000 500 1000 200 (by norm_num)

/-- Claim C8: on every rendered-content change the scrollability of the
preview is re-evaluated; if the content does not exceed the viewport the
editor accepts manual wheel scrolling and a preview scroll event with
non-positive range changes nothing in the editor; if it does exceed the
viewport the wheel options flip back, and after any sequence of content
changes the options are those computed from the latest heights (one render
cycle). -/
theorem c8_scrollability_fallback (scrollHeight clientHeight : Int)
    (st esh elh : Rat) (hs : List (Int × Int)) (hne : hs ≠ []) (o : WheelOptions) :
    (scrollHeight ≤ clientHeight →
      updateScrollability scrollHeight clientHeight = ⟨true, true⟩ ∧
      handlePreviewScroll st scrollHeight clientHeight esh elh = none) ∧
    (clientHeight < scrollHeight →
      updateScrollability scrollHeight clientHeight = ⟨false, false⟩) ∧
    runScrollabilityEffects hs o =
      updateScrollability (hs.getLast hne).1 (hs.getLast hne).2 := by
  refine ⟨fun hle => ⟨?_, ?_⟩, fun hlt => ?_, runScrollabilityEffects_getLast hs hne o⟩
  · simp [updateScrollability, not_lt.mpr hle]
  · have hle' : (scrollHeight : Rat) - (clientHeight : Rat) ≤ 0 := by
      have h2 : ((scrollHeight : Int) : Rat) ≤ ((clientHeight : Int) : Rat) := by
        exact_mod_cast hle
      linarith
    simp [handlePreviewScroll, hle']
  · simp [updateScrollability, hlt]

/-- Witness for C8: non-scrollable pane (800 ≤ 800) enables the editor
wheel and suppresses sync; growing content to 1200 flips back. -/
theorem c8_scrollability_fallback_witness :
    ((800 : Int) ≤ 800 →
      updateScrollability 800 800 = ⟨true, true⟩ ∧
      handlePreviewScroll 10 800 800 1000 200 = none) ∧
    ((800 : Int) < 800 → updateScrollability 800 800 = ⟨false, false⟩) ∧
    runScrollabilityEffects [(800, 800), (1200, 800)] ⟨true, true⟩ =
      updateScrollability 1200 800 := by
  have h := c8_scrollability_fallback 800 800 10 1000 200 [(800, 800), (1200, 800)]
    (by simp) ⟨true, true⟩
  exact h

/-!
Render-generation commit protocol (`MarkdownPreview` `useEffect` on
`[content]`).  Each effect run for source contents Cᵢ starts an async
`render` closure guarded by its own `isActive` flag; the effect cleanup
(which React runs when the next effect for newer content starts) sets the
previous pass's flag to `false`, and a completing pass commits only while
its flag is still `true` and its HTML differs from the last committed one.
Pass 1 renders html `1`, pass 2 renders html `2`.
-/

/-- State shared by the two overlapping render passes: each pass's
`isActive` closure flag and the committed HTML (`none` before the first
commit). -/
structure PreviewRenderState where
  isActive1 : Bool
  isActive2 : Bool
  committed : Option Nat
deriving DecidableEq, Repr

/-- The scheduling/completion events of the two passes: `request2` is the
effect run for C2 (whose first action is running C1's cleanup, clearing
`isActive` of pass 1); `complete1`/`complete2` are the async completions of
the two passes' renders. -/
inductive RenderEvent where
  | request2
  | complete1
  | complete2
deriving DecidableEq, Repr

/-- One event of the commit protocol: a completing pass commits its HTML
only if its `isActive` flag is still set and the HTML differs from the last
committed HTML (the `newHtml !== lastRenderedHtmlRef.current` guard). -/
def renderStep (s : PreviewRenderState) : RenderEvent → PreviewRenderState
  | .request2 => { s with isActive1 := false }
  | .complete1 =>
    if s.isActive1 ∧ s.committed ≠ some 1 then { s with committed := some 1 } else s
  | .complete2 =>
    if s.isActive2 ∧ s.committed ≠ some 2 then { s with committed := some 2 } else s

/-- Run a sequence of render events. -/
def runRender (s : PreviewRenderState) (t : List RenderEvent) : PreviewRenderState :=
  t.foldl renderStep s

/-- Initial state: both passes in flight, nothing committed. -/
def initialRenderState : PreviewRenderState := ⟨true, true, none⟩

/-- Claim C1: for passes triggered by C1 then C2 and any completion order
(any interleaving in which pass 2's request precedes its completion), the
finally committed HTML is pass 2's; moreover a pass whose cleanup has run
(`isActive = false`) is a no-op on completion — it is discarded and can
never overwrite the newer pass's committed output. -/
theorem c1_latest_generation_commits (t : List RenderEvent)
    (hperm : t.Perm [RenderEvent.request2, RenderEvent.complete1, RenderEvent.complete2])
    (horder : List.Sublist [RenderEvent.request2, RenderEvent.complete2] t) :
    (runRender initialRenderState t).committed = some 2 ∧
    ∀ s : PreviewRenderState, s.isActive1 = false →
      renderStep s RenderEvent.complete1 = s := by
  constructor
  · match t with
    | [] => exact absurd hperm.length_eq (by simp)
    | [a] => exact absurd hperm.length_eq (by simp)
    | [a, b] => exact absurd hperm.length_eq (by simp)
    | [a, b, c] =>
      cases a <;> cases b <;> cases c <;> revert hperm horder <;> decide
    | a :: b :: c :: d :: r =>
      have hl := hperm.length_eq
      simp only [List.length_cons, List.length_nil] at hl
      omega
  · intro s hs
    simp [renderStep, hs]

/-- Witness for C1: pass 1 completes after pass 2 was requested and after
pass 2 committed; the final committed HTML is still pass 2's. -/
theorem c1_latest_generation_commits_witness :
    (runRender initialRenderState
        [RenderEvent.request2, RenderEvent.complete2, RenderEvent.complete1]).committed =
      some 2 ∧
    ∀ s : PreviewRenderState, s.isActive1 = false →
      renderStep s RenderEvent.complete1 = s :=
  c1_latest_generation_commits
    [RenderEvent.request2, RenderEvent.complete2, RenderEvent.complete1]
    (by decide) (by decide)

/-!
Incremental render scheduler (`MarkdownPreview` `useEffect` on `[content]`,
lines 252–264): `isInitialLoad || contentDiff > 50` renders immediately,
otherwise a 300 ms trailing debounce timer is (re)armed; the cleanup of the
superseded effect run clears the previous timer.  (The completion of an
immediately invoked render is assumed to commit before the next change is
processed, which is what sets `lastRenderedHtmlRef`; `hasRendered` models
`lastRenderedHtmlRef.current !== ''`.)
-/

/-- The debounce delay used by the `MarkdownPreview` scheduler (ms). -/
def DEBOUNCE_MS : Nat := 300

/-- Scheduler state: `lastContentRef.current.length`, whether any render
has committed (`lastRenderedHtmlRef.current !== ''`), the pending debounce
timer's captured content, and the list of contents for which the external
renderer was invoked. -/
structure SchedulerState where
  lastContentLen : Nat
  hasRendered : Bool
  pending : Option String
  invoked : List String
deriving DecidableEq, Repr

/-- Scheduler events: a source-content change (one effect run) or the
debounce timer firing. -/
inductive SchedulerEvent where
  | change (c : String)
  | timerFire
deriving DecidableEq, Repr

/-- `Math.abs(content.length - lastContentRef.current.length)`. -/
def contentLenDiff (lastLen : Nat) (c : String) : Nat :=
  max lastLen c.length - min lastLen c.length

/-- One scheduler step.  On a change, the previous effect's cleanup first
clears any pending timer; then the effect body renders immediately when
`isInitialLoad || contentDiff > 50`, else arms a fresh `DEBOUNCE_MS` timer
capturing the new content.  A firing timer issues the captured render. -/
def schedulerStep (s : SchedulerState) : SchedulerEvent → SchedulerState
  | .change c =>
    let s0 : SchedulerState := { s with pending := none }
    if (!s0.hasRendered) || decide (50 < contentLenDiff s0.lastContentLen c) then
      { s0 with lastContentLen := c.length, hasRendered := true,
                invoked := s0.invoked ++ [c] }
    else
      { s0 with lastContentLen := c.length, pending := some c }
  | .timerFire =>
    match s.pending with
    | some c =>
      { s with pending := none, hasRendered := true, invoked := s.invoked ++ [c] }
    | none => s

/-- Run a sequence of scheduler events. -/
def runScheduler (s : SchedulerState) (evs : List SchedulerEvent) : SchedulerState :=
  evs.foldl schedulerStep s

/-- Every consecutive content-length delta along `cs`, starting from
`lastLen`, is at most 50 (so each change takes the debounce branch). -/
def smallSteps : Nat → List String → Bool
  | _, [] => true
  | l, c :: cs => decide (contentLenDiff l c ≤ 50) && smallSteps c.length cs

lemma runScheduler_small_changes (cs : List String) (c0 : String)
    (s : SchedulerState) (hr : s.hasRendered = true)
    (hsmall : smallSteps s.lastContentLen (c0 :: cs) = true) :
    runScheduler s ((c0 :: cs).map SchedulerEvent.change) =
      { s with pending := some (cs.getLastD c0),
               lastContentLen := (cs.getLastD c0).length } := by
  induction cs generalizing s c0 with
  | nil =>
    have h0 : (decide (contentLenDiff s.lastContentLen c0 ≤ 50) &&
        smallSteps c0.length []) = true := hsmall
    rw [Bool.and_eq_true, decide_eq_true_eq] at h0
    simp only [List.map_cons, List.map_nil, runScheduler, List.foldl_cons, List.foldl_nil,
      List.getLastD_nil]
    simp [schedulerStep, hr, Nat.not_lt.mpr h0.1]
  | cons c1 cs ih =>
    have h0 : (decide (contentLenDiff s.lastContentLen c0 ≤ 50) &&
        smallSteps c0.length (c1 :: cs)) = true := hsmall
    rw [Bool.and_eq_true, decide_eq_true_eq] at h0
    have hstep : schedulerStep s (SchedulerEvent.change c0) =
        { s with pending := some c0, lastContentLen := c0.length } := by
      simp [schedulerStep, hr, Nat.not_lt.mpr h0.1]
    have hrest := ih c1 { s with pending := some c0, lastContentLen := c0.length }
      (by simpa using hr) (by simpa using h0.2)
    simp only [runScheduler, List.map_cons, List.foldl_cons] at hrest ⊢
    rw [hstep, hrest, List.getLastD_cons]

/-- Claim C3: a change renders immediately iff it is the very first render
or the content-length delta exceeds 50; otherwise it arms a trailing
`DEBOUNCE_MS`-timer (within the 200–300 ms band) replacing any pending
timer; and a sequence of small changes all arriving before the timer fires
produces exactly one external render invocation, for the last content (the
superseded ones are never issued). -/
theorem c3_debounce_scheduling (s : SchedulerState) (c0 : String) (cs : List String)
    (hr : s.hasRendered = true)
    (hsmall : smallSteps s.lastContentLen (c0 :: cs) = true) :
    (∀ (s' : SchedulerState) (c : String),
      (s'.hasRendered = false ∨ 50 < contentLenDiff s'.lastContentLen c) →
      schedulerStep s' (SchedulerEvent.change c) =
        { s' with pending := none, lastContentLen := c.length, hasRendered := true,
                  invoked := s'.invoked ++ [c] }) ∧
    (∀ (s' : SchedulerState) (c : String),
      s'.hasRendered = true → contentLenDiff s'.lastContentLen c ≤ 50 →
      schedulerStep s' (SchedulerEvent.change c) =
        { s' with pending := some c, lastContentLen := c.length }) ∧
    (runScheduler s ((c0 :: cs).map SchedulerEvent.change ++ [SchedulerEvent.timerFire]) =
      { s with pending := none, hasRendered := true,
               lastContentLen := (cs.getLastD c0).length,
               invoked := s.invoked ++ [cs.getLastD c0] }) ∧
    200 ≤ DEBOUNCE_MS ∧ DEBOUNCE_MS ≤ 300 := by
  refine ⟨?_, ?_, ?_, by decide, by decide⟩
  · intro s' c hcond
    rcases hcond with hcond | hcond
    · simp [schedulerStep, hcond]
    · simp [schedulerStep, hcond]
  · intro s' c hr' hdiff
    simp [schedulerStep, hr', Nat.not_lt.mpr hdiff]
  · rw [runScheduler, List.foldl_append]
    have h1 := runScheduler_small_changes cs c0 s hr hsmall
    rw [runScheduler] at h1
    rw [h1]
    simp [schedulerStep, hr]

/-- Witness for C3: from a rendered state with content length 10, two small
changes (lengths 12 and 5) followed by the timer firing invoke the renderer
exactly once, for the last content. -/
theorem c3_debounce_scheduling_witness :
    (∀ (s' : SchedulerState) (c : String),
      (s'.hasRendered = false ∨ 50 < contentLenDiff s'.lastContentLen c) →
      schedulerStep s' (SchedulerEvent.change c) =
        { s' with pending := none, lastContentLen := c.length, hasRendered := true,
                  invoked := s'.invoked ++ [c] }) ∧
    (∀ (s' : SchedulerState) (c : String),
      s'.hasRendered = true → contentLenDiff s'.lastContentLen c ≤ 50 →
      schedulerStep s' (SchedulerEvent.change c) =
        { s' with pending := some c, lastContentLen := c.length }) ∧
    (runScheduler ⟨10, true, none, []⟩
        ((["abcdefghij12", "hello"]).map SchedulerEvent.change ++
          [SchedulerEvent.timerFire]) =
      { lastContentLen := ("hello" : String).length, hasRendered := true,
        pending := none, invoked := [] ++ ["hello"] }) ∧
    200 ≤ DEBOUNCE_MS ∧ DEBOUNCE_MS ≤ 300 :=
  c3_debounce_scheduling ⟨10, true, none, []⟩ "abcdefghij12" ["hello"] rfl (by decide)

/-!
Diagram/chart sub-render pipeline of `MarkdownPreview.render` step 3 and
`initAuxiliaryComponents`.  The mermaid rasterizer (`mermaid.render`) is an
external async function modelled as `String → Except String String` (it may
fail and the failure is caught per node); the ECharts step
(`JSON.parse` + `echarts.init`/`setOption`) is modelled as
`String → Option String`.  The cache `mermaidCacheRef.current` is a
`Record<string, string>` keyed by `text.trim()`.
-/

/-- Drop leading whitespace characters from a character list. -/
def dropLeadingWs : List Char → List Char
  | [] => []
  | c :: cs => if c.isWhitespace then dropLeadingWs cs else c :: cs

/-- JS `String.prototype.trim()` (drop leading and trailing whitespace),
executable over the string's characters. -/
def jsTrim (s : String) : String :=
  ⟨(dropLeadingWs ((dropLeadingWs s.data).reverse)).reverse⟩

/-- Decidable substring occurrence: `pat` occurs contiguously in `s`. -/
def occursInStr (pat s : String) : Bool :=
  (List.range (s.data.length + 1)).any fun i => pat.data.isPrefixOf (s.data.drop i)

/-- The HTML emitted for a successfully rendered mermaid node
(`node.outerHTML = <div class="mermaid-container" ...>svg</div>`). -/
def mermaidContainer (line lineEnd svg : String) : String :=
  "<div class=\"mermaid-container\" data-line=\"" ++ line ++ "\" data-line-end=\"" ++
    lineEnd ++ "\">" ++ svg ++ "</div>"

/-- Opening of the mermaid error HTML: the outer `.mermaid` fence div is
kept and its innerHTML is replaced by an error div followed by
`<pre>` + the node's original text. -/
def mermaidErrorHead (line lineEnd msg : String) : String :=
  "<div class=\"mermaid\" data-line=\"" ++ line ++ "\" data-line-end=\"" ++ lineEnd ++
    "\"><div class=\"text-red-500 border border-red-300 bg-red-50 p-2 rounded\">Mermaid 渲染错误: " ++
    msg ++ "</div><pre>"

/-- The HTML produced by the mermaid error branch, carrying the node's
original source text inside the `<pre>`. -/
def mermaidErrorHtml (line lineEnd msg text : String) : String :=
  mermaidErrorHead line lineEnd msg ++ text ++ "</pre></div>"

/-- Embeds the per-node mermaid processing of `MarkdownPreview.render`:
`cacheKey := text.trim()`; on a cache hit the cached svg is reused and the
rasterizer is not invoked; on a miss `mermaid.render(id, text)` is awaited,
its svg stored under the key, and the container emitted; a rasterizer
failure is caught and the node is replaced in place by an error placeholder
(the cache is not written).  The returned `Bool` records whether the
rasterizer was invoked. -/
def processMermaid (cache : List (String × String)) (text line lineEnd : String)
    (raster : String → Except String String) :
    String × List (String × String) × Bool :=
  let cacheKey := jsTrim text
  match cache.lookup cacheKey with
  | some svg => (mermaidContainer line lineEnd svg, cache, false)
  | none =>
    match raster text with
    | Except.ok svg => (mermaidContainer line lineEnd svg, (cacheKey, svg) :: cache, true)
    | Except.error msg => (mermaidErrorHtml line lineEnd msg text, cache, true)

/-- The HTML of a successfully initialized ECharts container. -/
def echartsChartHtml (line lineEnd rendered : String) : String :=
  "<div class=\"echarts-chart w-full h-96 my-4\" data-line=\"" ++ line ++
    "\" data-line-end=\"" ++ lineEnd ++ "\" data-processed=\"true\">" ++ rendered ++ "</div>"

/-- The HTML produced by the ECharts error branch of
`initAuxiliaryComponents`: the container's innerHTML (including the
`<script>` holding the JSON source) is replaced by a fixed error div. -/
def echartsErrorHtml (line lineEnd : String) : String :=
  "<div class=\"echarts-chart w-full h-96 my-4\" data-line=\"" ++ line ++
    "\" data-line-end=\"" ++ lineEnd ++
    "\"><div class=\"text-red-500 p-4 border border-red-300 bg-red-50 rounded\">Error rendering chart: Invalid JSON configuration</div></div>"

/-- A block of one render pass, as produced by the markdown renderer:
ordinary HTML, a mermaid fence (with its source text and line anchors), or
an ECharts fence (with its JSON source). -/
inductive Block where
  | plain (html : String)
  | mermaidBlock (text line lineEnd : String)
  | echartsBlock (json line lineEnd : String)
deriving DecidableEq, Repr

/-- Render one block: mermaid blocks go through the cached rasterizer with
per-node error recovery; ECharts blocks are parsed/initialized, a failure
being caught and replaced by the fixed placeholder; plain HTML passes
through.  Returns the block's HTML and the updated diagram cache. -/
def renderBlock (raster : String → Except String String) (parse : String → Option String)
    (cache : List (String × String)) : Block → String × List (String × String)
  | .plain h => (h, cache)
  | .mermaidBlock t l e =>
    let r := processMermaid cache t l e raster
    (r.1, r.2.1)
  | .echartsBlock j l e =>
    match parse j with
    | some rendered => (echartsChartHtml l e rendered, cache)
    | none => (echartsErrorHtml l e, cache)

/-- Render a whole pass: every block is processed, each with its own error
recovery, threading the diagram cache; no failure aborts the pass. -/
def renderPass (raster : String → Except String String) (parse : String → Option String)
    (cache : List (String × String)) : List Block → List String × List (String × String)
  | [] => ([], cache)
  | b :: bs =>
    let r := renderBlock raster parse cache b
    let rest := renderPass raster parse r.2 bs
    (r.1 :: rest.1, rest.2)

lemma isPrefixOf_append_self (l r : List Char) : l.isPrefixOf (l ++ r) = true := by
  induction l with
  | nil => simp [List.isPrefixOf]
  | cons a as ih => simp [List.isPrefixOf, ih]

lemma occursInStr_append_mid (a pat b : String) :
    occursInStr pat (a ++ pat ++ b) = true := by
  rw [occursInStr, List.any_eq_true]
  refine ⟨a.data.length, ?_, ?_⟩
  · rw [List.mem_range]
    simp [String.data_append]
    omega
  · rw [String.data_append, String.data_append, List.append_assoc, List.drop_left]
    exact isPrefixOf_append_self _ _

lemma renderPass_length (raster : String → Except String String)
    (parse : String → Option String) (cache : List (String × String)) (bs : List Block) :
    (renderPass raster parse cache bs).1.length = bs.length := by
  induction bs generalizing cache with
  | nil => rfl
  | cons b bs ih => simp [renderPass, ih]

lemma renderPass_append (raster : String → Except String String)
    (parse : String → Option String) (cache : List (String × String))
    (xs ys : List Block) :
    renderPass raster parse cache (xs ++ ys) =
      ((renderPass raster parse cache xs).1 ++
        (renderPass raster parse (renderPass raster parse cache xs).2 ys).1,
       (renderPass raster parse (renderPass raster parse cache xs).2 ys).2) := by
  induction xs generalizing cache with
  | nil => simp [renderPass]
  | cons x xs ih => simp [renderPass, ih]

/-- Counterexample to C5 as stated: the diagram sources `"a "` and `"a"`
differ by one character, yet the second request is a cache hit (the
rasterizer is not invoked), because keys are trimmed and the differing
character is trailing whitespace — refuting "two diagrams differing by one
character are cache misses". -/
theorem c5_counterexample_whitespace_key :
    ("a " ≠ "a") ∧
    (processMermaid [] "a" "0" "1" (fun s => Except.ok ("svg:" ++ s))).2.2 = true ∧
    (processMermaid (processMermaid [] "a" "0" "1" (fun s => Except.ok ("svg:" ++ s))).2.1
        "a " "0" "1" (fun s => Except.ok ("svg:" ++ s))).2.2 = false := by
  decide

/-- Claim C5 (amended): for two passes whose diagram blocks have identical
trimmed source text, the rasterizer is invoked at most once across both
(the second is a cache hit returning the same rasterized output verbatim);
keys are exact trimmed-text matches, so two diagrams whose **trimmed**
texts differ are cache misses; and requesting the same key twice without an
intervening put for a different value returns the same output. -/
theorem c5_diagram_cache_amended (cache : List (String × String))
    (t1 t2 t3 l1 e1 l2 e2 l3 e3 svg : String)
    (raster : String → Except String String)
    (hok : raster t1 = Except.ok svg)
    (hmiss : cache.lookup (jsTrim t1) = none)
    (heq : jsTrim t2 = jsTrim t1) :
    (processMermaid cache t1 l1 e1 raster).2.2 = true ∧
    (processMermaid (processMermaid cache t1 l1 e1 raster).2.1 t2 l2 e2 raster).2.2 =
      false ∧
    (processMermaid cache t1 l1 e1 raster).1 = mermaidContainer l1 e1 svg ∧
    (processMermaid (processMermaid cache t1 l1 e1 raster).2.1 t2 l2 e2 raster).1 =
      mermaidContainer l2 e2 svg ∧
    (jsTrim t3 ≠ jsTrim t1 → cache.lookup (jsTrim t3) = none →
      (processMermaid (processMermaid cache t1 l1 e1 raster).2.1 t3 l3 e3 raster).2.2 =
        true) := by
  have h1 : processMermaid cache t1 l1 e1 raster =
      (mermaidContainer l1 e1 svg, (jsTrim t1, svg) :: cache, true) := by
    simp only [processMermaid, hmiss, hok]
  rw [h1]
  have h2 : processMermaid ((jsTrim t1, svg) :: cache) t2 l2 e2 raster =
      (mermaidContainer l2 e2 svg, (jsTrim t1, svg) :: cache, false) := by
    have hl : List.lookup (jsTrim t2) ((jsTrim t1, svg) :: cache) = some svg := by
      simp [List.lookup, heq]
    simp only [processMermaid, hl]
  rw [h2]
  refine ⟨rfl, rfl, rfl, rfl, fun hne h3 => ?_⟩
  have hbeq : (jsTrim t3 == jsTrim t1) = false := beq_eq_false_iff_ne.mpr hne
  have hl : List.lookup (jsTrim t3) ((jsTrim t1, svg) :: cache) = none := by
    simp [List.lookup, hbeq, h3]
  cases hr : raster t3 <;> simp [processMermaid, hl, hr]

/-- Witness for C5 (amended) at concrete diagrams `" graph "` / `"graph"`
(same trimmed key) and `"other"` (different key). -/
theorem c5_diagram_cache_amended_witness :
    (processMermaid [] " graph " "0" "2" (fun s => Except.ok ("svg:" ++ s))).2.2 = true ∧
    (processMermaid (processMermaid [] " graph " "0" "2"
        (fun s => Except.ok ("svg:" ++ s))).2.1 "graph" "5" "7"
        (fun s => Except.ok ("svg:" ++ s))).2.2 = false ∧
    (processMermaid [] " graph " "0" "2" (fun s => Except.ok ("svg:" ++ s))).1 =
      mermaidContainer "0" "2" "svg: graph " ∧
    (processMermaid (processMermaid [] " graph " "0" "2"
        (fun s => Except.ok ("svg:" ++ s))).2.1 "graph" "5" "7"
        (fun s => Except.ok ("svg:" ++ s))).1 =
      mermaidContainer "5" "7" "svg: graph " ∧
    (jsTrim "other" ≠ jsTrim " graph " →
        List.lookup (jsTrim "other") ([] : List (String × String)) = none →
      (processMermaid (processMermaid [] " graph " "0" "2"
          (fun s => Except.ok ("svg:" ++ s))).2.1 "other" "9" "9"
          (fun s => Except.ok ("svg:" ++ s))).2.2 = true) :=
  c5_diagram_cache_amended [] " graph " "graph" "other" "0" "2" "5" "7" "9" "9"
    "svg: graph " (fun s => Except.ok ("svg:" ++ s)) rfl rfl (by decide)

set_option maxRecDepth 4000 in
/-- Counterexample to C9 as stated: for the failing ECharts block with
source `"badjson123"`, the inline error placeholder does **not** carry the
block's original source text (the `<script>` holding the JSON is wiped by
the innerHTML replacement). -/
theorem c9_counterexample_echarts_placeholder :
    occursInStr "badjson123"
      (renderBlock (fun s => Except.ok s) (fun _ => none) []
        (Block.echartsBlock "badjson123" "0" "1")).1 = false := by
  decide

/-- Claim C9 (amended): a rasterization failure of a single block replaces
only that block with an inline error placeholder — for a mermaid block the
placeholder carries the block's original source text, for an ECharts block
it is a fixed generic message without the source; every other block of the
pass renders normally (the pass output decomposes around the failing
block), the pass still commits (one output per block, no abort), and no
blocking error is raised (failures are values, not exceptions). -/
theorem c9_render_failure_isolation_amended
    (raster : String → Except String String) (parse : String → Option String)
    (cache : List (String × String)) (t j lm em l e msg : String)
    (pre post : List Block)
    (herr : raster t = Except.error msg)
    (hmiss : cache.lookup (jsTrim t) = none)
    (hbad : parse j = none) :
    occursInStr t (renderBlock raster parse cache (Block.mermaidBlock t lm em)).1 = true ∧
    (renderBlock raster parse cache (Block.echartsBlock j l e)).1 = echartsErrorHtml l e ∧
    (∀ bs : List Block, (renderPass raster parse cache bs).1.length = bs.length) ∧
    (renderPass raster parse cache (pre ++ Block.echartsBlock j l e :: post)).1 =
      (renderPass raster parse cache pre).1 ++ echartsErrorHtml l e ::
        (renderPass raster parse (renderPass raster parse cache pre).2 post).1 := by
  refine ⟨?_, ?_, renderPass_length raster parse cache, ?_⟩
  · have h1 : (renderBlock raster parse cache (Block.mermaidBlock t lm em)).1 =
        mermaidErrorHead lm em msg ++ t ++ "</pre></div>" := by
      simp only [renderBlock, processMermaid, hmiss, herr, mermaidErrorHtml]
    rw [h1]
    exact occursInStr_append_mid _ _ _
  · simp only [renderBlock, hbad]
  · rw [renderPass_append]
    simp only [renderPass, renderBlock, hbad]

/-- Witness for C9 (amended) at a concrete pass: a paragraph, a failing
mermaid block, and a failing ECharts block. -/
theorem c9_render_failure_isolation_amended_witness :
    occursInStr "badgraph"
      (renderBlock (fun _ => Except.error "parse error") (fun _ => none) []
        (Block.mermaidBlock "badgraph" "2" "4")).1 = true ∧
    (renderBlock (fun _ => Except.error "parse error") (fun _ => none) []
        (Block.echartsBlock "badjson" "6" "8")).1 = echartsErrorHtml "6" "8" ∧
    (∀ bs : List Block,
      (renderPass (fun _ => Except.error "parse error") (fun _ => none) [] bs).1.length =
        bs.length) ∧
    (renderPass (fun _ => Except.error "parse error") (fun _ => none) []
        ([Block.plain "<p>ok</p>"] ++ Block.echartsBlock "badjson" "6" "8" ::
          [Block.plain "<p>tail</p>"])).1 =
      (renderPass (fun _ => Except.error "parse error") (fun _ => none) []
          [Block.plain "<p>ok</p>"]).1 ++ echartsErrorHtml "6" "8" ::
        (renderPass (fun _ => Except.error "parse error") (fun _ => none)
            (renderPass (fun _ => Except.error "parse error") (fun _ => none) []
              [Block.plain "<p>ok</p>"]).2 [Block.plain "<p>tail</p>"]).1 :=
  c9_render_failure_isolation_amended (fun _ => Except.error "parse error")
    (fun _ => none) [] "badgraph" "badjson" "2" "4" "6" "8" "parse error"
    [Block.plain "<p>ok</p>"] [Block.plain "<p>tail</p>"] rfl rfl rfl

/-!
Highlight decorations (`performSearchAndHighlight`, editor-utils.ts
235–264).  On a match the shared ref `highlightDecorations.current` is
replaced via `deltaDecorations(current, [newDecoration])`, and a
`setTimeout(…, 1500)` is armed whose callback runs
`deltaDecorations(highlightDecorations.current, [])` — clearing whatever
decoration is current when the timer fires, not specifically the one the
timer was created for.
-/

/-- The auto-clear delay of a highlight decoration (ms). -/
def HIGHLIGHT_CLEAR_MS : Nat := 1500

/-- Highlight events: a locator match creating decoration `id` (arming a
timer for `id` at creation + 1500 ms), or the timer armed for `id`
firing. -/
inductive HighlightEvent where
  | create (id : Nat)
  | fire (id : Nat)
deriving DecidableEq, Repr

/-- One step on the shared decorations ref: a creation replaces whatever is
shown with the new decoration; a firing timer clears whatever is current at
fire time (its callback reads the shared ref, not its own decoration). -/
def highlightStep (cur : List Nat) : HighlightEvent → List Nat
  | .create id => [id]
  | .fire _ => []

/-- Run a time-ordered sequence of highlight events from the empty ref. -/
def runHighlights (evs : List HighlightEvent) : List Nat :=
  evs.foldl highlightStep []

lemma mem_foldl_highlightStep (post : List HighlightEvent) (s : List Nat) (id : Nat) :
    id ∈ post.foldl highlightStep s → id ∈ s ∨ HighlightEvent.create id ∈ post := by
  induction post generalizing s with
  | nil => intro h; exact Or.inl h
  | cons e rest ih =>
    intro h
    rcases ih (highlightStep s e) h with h' | h'
    · cases e with
      | create k =>
        simp only [highlightStep, List.mem_singleton] at h'
        subst h'
        exact Or.inr (List.mem_cons_self _ _)
      | fire k => simp [highlightStep] at h'
    · exact Or.inr (List.mem_cons_of_mem _ h')

/-- Counterexample to C7 as stated: with highlight 1 created at t = 0 ms
(its timer due at 1500 ms) and highlight 2 created at t = 1000 ms (timer
due at 2500 ms), decoration 2 is visible after its creation but is removed
when highlight 1's timer fires at t = 1500 ms — only 500 ms (< 1500 ms)
after decoration 2 was created, so an older highlight's timer does remove
an intervening newer highlight, and decoration 1 itself was already
removed at t = 1000 ms by the newer creation rather than exactly 1.5 s
after its own creation. -/
theorem c7_counterexample_timer_clears_newer :
    runHighlights [HighlightEvent.create 1, HighlightEvent.create 2] = [2] ∧
    runHighlights [HighlightEvent.create 1, HighlightEvent.create 2,
      HighlightEvent.fire 1] = [] ∧
    1500 - 1000 < HIGHLIGHT_CLEAR_MS := by
  decide

/-- Claim C7 (amended): every highlight decoration is cleared no later than
1.5 s after its creation — once any timer fires (in particular the
decoration's own, due `HIGHLIGHT_CLEAR_MS` after creation) the decoration
is gone and, not being re-created, never shown again; a creation replaces
whatever decoration was shown; and when no other event intervenes between a
creation and its own timer, the decoration stays visible right up to that
timer, so in isolation it is cleared exactly 1.5 s after creation. -/
theorem c7_highlight_timer_amended (post : List HighlightEvent) (cur : List Nat)
    (id j : Nat) (hno : HighlightEvent.create id ∉ post) :
    id ∉ post.foldl highlightStep (highlightStep cur (HighlightEvent.fire j)) ∧
    (∀ l : List Nat, highlightStep l (HighlightEvent.create id) = [id]) ∧
    (∀ evs : List HighlightEvent,
      runHighlights (evs ++ [HighlightEvent.create id]) = [id]) ∧
    HIGHLIGHT_CLEAR_MS = 1500 := by
  refine ⟨?_, fun l => rfl, fun evs => ?_, rfl⟩
  · intro hmem
    rcases mem_foldl_highlightStep post (highlightStep cur (HighlightEvent.fire j)) id
      hmem with h | h
    · simp [highlightStep] at h
    · exact hno h
  · rw [runHighlights, List.foldl_append]
    rfl

/-- Witness for C7 (amended): decoration 2 is not shown after a fire event
followed by an unrelated creation. -/
theorem c7_highlight_timer_amended_witness :
    2 ∉ [HighlightEvent.create 5].foldl highlightStep
      (highlightStep [3] (HighlightEvent.fire 9)) ∧
    (∀ l : List Nat, highlightStep l (HighlightEvent.create 2) = [2]) ∧
    (∀ evs : List HighlightEvent,
      runHighlights (evs ++ [HighlightEvent.create 2]) = [2]) ∧
    HIGHLIGHT_CLEAR_MS = 1500 :=
  c7_highlight_timer_amended [HighlightEvent.create 5] [3] 2 9 (by decide)

/-!
Selection-to-source locator (`performSearchAndHighlight`, editor-utils.ts
150–233).  The Monaco model is a list of lines (1-based); `findMatches`
with an escaped (hence literal) needle is modelled at line granularity as
the ordered list of line numbers containing the needle; the next-heading
regex `^#+\s+` is one or more `#` followed by a whitespace character.
-/

/-- The 1-based numbers of the lines within `[startLine, endLine]` whose
text contains `pat`, in document order. -/
def findMatchLines (doc : List String) (pat : String) (startLine endLine : Nat) :
    List Nat :=
  ((List.range doc.length).filter fun i =>
    decide (startLine ≤ i + 1) && decide (i + 1 ≤ endLine) &&
      occursInStr pat (doc.getD i "")).map (· + 1)

/-- After at least one `#`: skip further `#`s, then require a whitespace
character (the `\s+` part of the next-heading regex). -/
def headingHashTail : List Char → Bool
  | '#' :: rest => headingHashTail rest
  | c :: _ => c.isWhitespace
  | [] => false

/-- A line matching the Monaco regex `^#+\s+`. -/
def isHeadingLine (s : String) : Bool :=
  match s.data with
  | '#' :: rest => headingHashTail rest
  | _ => false

/-- Heading narrowing (step 1): the first occurrence of the heading text
anywhere in the document becomes `startLine`; the first later line
matching `^#+\s+` becomes `endLine`, else the document end. -/
def headingRange (doc : List String) (heading : String) : Nat × Nat :=
  let lineCount := doc.length
  if heading = "" then (1, lineCount)
  else
    match findMatchLines doc heading 1 lineCount with
    | [] => (1, lineCount)
    | s :: _ =>
      let headingLines := ((List.range doc.length).filter fun i =>
        isHeadingLine (doc.getD i "")).map (· + 1)
      match headingLines.filter (fun l => decide (s < l)) with
      | [] => (s, lineCount)
      | e :: _ => (s, e)

/-- Line-hint narrowing (step 2): the 0-based `data-line` hint (`-1` when
absent) is converted to 1-based and replaces the start of the search range
when it lies inside it. -/
def applyLineHint (startLine endLine : Nat) (lineHint : Int) : Nat :=
  if lineHint ≠ -1 then
    let adjusted := lineHint + 1
    if (startLine : Int) ≤ adjusted ∧ adjusted ≤ (endLine : Int) then adjusted.toNat
    else startLine
  else startLine

/-- Step 5's tie-break: the match whose start line is closest to the
visible-viewport center, earlier matches winning ties (the loop only
improves on strict decrease of the distance). -/
def closestToCenter (ls : List Nat) (c : Rat) : Option Nat :=
  ls.foldl (fun acc l =>
    match acc with
    | none => some l
    | some b => if |(l : Rat) - c| < |(b : Rat) - c| then some l else acc) none

/-- Document-wide fallback (step 5): search the whole document for the raw
text; with a visible viewport pick the occurrence closest to its center
line, otherwise the first occurrence; `none` if the text occurs nowhere. -/
def searchFallbackDocWide (doc : List String) (text : String)
    (centerLine : Option Rat) : Option Nat :=
  match findMatchLines doc text 1 doc.length with
  | [] => none
  | m0 :: ms =>
    match centerLine with
    | none => some m0
    | some c => closestToCenter (m0 :: ms) c

/-- Embeds `performSearchAndHighlight`: empty text is a no-op; the heading
establishes the range, the line hint narrows its start; the sentence is
searched in the range only when longer than 5 characters; otherwise/next
the raw text is searched in the range; finally the raw text document-wide
with the closest-to-center tie-break.  Returns the matched line (`none` is
the silent no-op). -/
def performSearchAndHighlight (doc : List String) (text sentence heading : String)
    (lineHint : Int) (centerLine : Option Rat) : Option Nat :=
  if text = "" then none
  else
    let r := headingRange doc heading
    let s := applyLineHint r.1 r.2 lineHint
    let sentenceBest : Option Nat :=
      if sentence ≠ "" ∧ 5 < sentence.length then
        (findMatchLines doc sentence s r.2).head?
      else none
    match sentenceBest with
    | some l => some l
    | none =>
      match (findMatchLines doc text s r.2).head? with
      | some l => some l
      | none => searchFallbackDocWide doc text centerLine

/-- The search order exactly as claim C4 states it — the enclosing sentence
is searched first whenever one exists, with no length guard.  Used only to
compare the code against the claim's wording. -/
def claimedSearchOrder (doc : List String) (text sentence heading : String)
    (lineHint : Int) (centerLine : Option Rat) : Option Nat :=
  if text = "" then none
  else
    let r := headingRange doc heading
    let s := applyLineHint r.1 r.2 lineHint
    let sentenceBest : Option Nat :=
      if sentence ≠ "" then (findMatchLines doc sentence s r.2).head?
      else none
    match sentenceBest with
    | some l => some l
    | none =>
      match (findMatchLines doc text s r.2).head? with
      | some l => some l
      | none => searchFallbackDocWide doc text centerLine

/-- Counterexample to C4 as stated: in the document
`["# H", "abc", "# K", "zzz"]`, selecting text `"zzz"` with enclosing
sentence `"abc"` (5 characters or fewer) under heading `"H"`: the claimed
order finds the sentence inside the heading range (line 2), but the code
skips the sentence search because of its `sentence.length > 5` guard and
resolves to line 4 via the document-wide raw-text fallback. -/
theorem c4_counterexample_sentence_guard :
    performSearchAndHighlight ["# H", "abc", "# K", "zzz"] "zzz" "abc" "H" (-1) none =
      some 4 ∧
    claimedSearchOrder ["# H", "abc", "# K", "zzz"] "zzz" "abc" "H" (-1) none =
      some 2 ∧
    (some 4 : Option Nat) ≠ some 2 := by
  decide

/-- Claim C4 (amended): the search proceeds in the claimed order with the
code's guard — the enclosing sentence, **when longer than 5 characters**,
is searched within the heading-established range (narrowed to start at the
line hint when it lies inside); if not found (or too short) the raw text is
searched within that range; if still not found the whole document is
searched for the raw text with the closest-to-viewport-center occurrence
chosen; and in the scenario document, selecting `"text2"` resolves to the
source line containing `text2` under heading `B` (line 7). -/
theorem c4_search_order_amended (doc : List String) (text sentence heading : String)
    (lineHint : Int) (centerLine : Option Rat) (l : Nat)
    (htext : text ≠ "") :
    ((sentence ≠ "" ∧ 5 < sentence.length) →
      (findMatchLines doc sentence
        (applyLineHint (headingRange doc heading).1 (headingRange doc heading).2 lineHint)
        (headingRange doc heading).2).head? = some l →
      performSearchAndHighlight doc text sentence heading lineHint centerLine = some l) ∧
    ((¬(sentence ≠ "" ∧ 5 < sentence.length) ∨
      findMatchLines doc sentence
        (applyLineHint (headingRange doc heading).1 (headingRange doc heading).2 lineHint)
        (headingRange doc heading).2 = []) →
      (findMatchLines doc text
        (applyLineHint (headingRange doc heading).1 (headingRange doc heading).2 lineHint)
        (headingRange doc heading).2).head? = some l →
      performSearchAndHighlight doc text sentence heading lineHint centerLine = some l) ∧
    ((¬(sentence ≠ "" ∧ 5 < sentence.length) ∨
      findMatchLines doc sentence
        (applyLineHint (headingRange doc heading).1 (headingRange doc heading).2 lineHint)
        (headingRange doc heading).2 = []) →
      findMatchLines doc text
        (applyLineHint (headingRange doc heading).1 (headingRange doc heading).2 lineHint)
        (headingRange doc heading).2 = [] →
      performSearchAndHighlight doc text sentence heading lineHint centerLine =
        searchFallbackDocWide doc text centerLine) ∧
    performSearchAndHighlight
      ["# A", "", "text1", "", "# B", "", "text2", "", "# C", "", "text3"]
      "text2" "text2" "B" 6 none = some 7 := by
  refine ⟨?_, ?_, ?_, by decide⟩
  · intro h1 h2
    simp only [performSearchAndHighlight, if_neg htext, if_pos h1, h2]
  · intro h1 h2
    rcases h1 with h1 | h1
    · simp only [performSearchAndHighlight, if_neg htext, if_neg h1, h2]
    · by_cases hc : sentence ≠ "" ∧ 5 < sentence.length
      · simp only [performSearchAndHighlight, if_neg htext, if_pos hc, h1,
          List.head?_nil, h2]
      · simp only [performSearchAndHighlight, if_neg htext, if_neg hc, h2]
  · intro h1 h2
    rcases h1 with h1 | h1
    · simp only [performSearchAndHighlight, if_neg htext, if_neg h1, h2,
        List.head?_nil]
    · by_cases hc : sentence ≠ "" ∧ 5 < sentence.length
      · simp only [performSearchAndHighlight, if_neg htext, if_pos hc, h1, h2,
          List.head?_nil]
      · simp only [performSearchAndHighlight, if_neg htext, if_neg hc, h2,
          List.head?_nil]

/-- Witness for C4 (amended): the theorem instantiated at the scenario
document, selecting `"text2"` under heading `"B"` with line hint 6. -/
theorem c4_search_order_amended_witness :
    ((("text2" : String) ≠ "" ∧ 5 < ("text2" : String).length) →
      (findMatchLines ["# A", "", "text1", "", "# B", "", "text2", "", "# C", "", "text3"]
        "text2"
        (applyLineHint
          (headingRange ["# A", "", "text1", "", "# B", "", "text2", "", "# C", "", "text3"] "B").1
          (headingRange ["# A", "", "text1", "", "# B", "", "text2", "", "# C", "", "text3"] "B").2 6)
        (headingRange ["# A", "", "text1", "", "# B", "", "text2", "", "# C", "", "text3"] "B").2).head? =
          some 7 →
      performSearchAndHighlight
        ["# A", "", "text1", "", "# B", "", "text2", "", "# C", "", "text3"]
        "text2" "text2" "B" 6 none = some 7) ∧
    ((¬(("text2" : String) ≠ "" ∧ 5 < ("text2" : String).length) ∨
      findMatchLines ["# A", "", "text1", "", "# B", "", "text2", "", "# C", "", "text3"]
        "text2"
        (applyLineHint
          (headingRange ["# A", "", "text1", "", "# B", "", "text2", "", "# C", "", "text3"] "B").1
          (headingRange ["# A", "", "text1", "", "# B", "", "text2", "", "# C", "", "text3"] "B").2 6)
        (headingRange ["# A", "", "text1", "", "# B", "", "text2", "", "# C", "", "text3"] "B").2 = []) →
      (findMatchLines ["# A", "", "text1", "", "# B", "", "text2", "", "# C", "", "text3"]
        "text2"
        (applyLineHint
          (headingRange ["# A", "", "text1", "", "# B", "", "text2", "", "# C", "", "text3"] "B").1
          (headingRange ["# A", "", "text1", "", "# B", "", "text2", "", "# C", "", "text3"] "B").2 6)
        (headingRange ["# A", "", "text1", "", "# B", "", "text2", "", "# C", "", "text3"] "B").2).head? =
          some 7 →
      performSearchAndHighlight
        ["# A", "", "text1", "", "# B", "", "text2", "", "# C", "", "text3"]
        "text2" "text2" "B" 6 none = some 7) ∧
    ((¬(("text2" : String) ≠ "" ∧ 5 < ("text2" : String).length) ∨
      findMatchLines ["# A", "", "text1", "", "# B", "", "text2", "", "# C", "", "text3"]
        "text2"
        (applyLineHint
          (headingRange ["# A", "", "text1", "", "# B", "", "text2", "", "# C", "", "text3"] "B").1
          (headingRange ["# A", "", "text1", "", "# B", "", "text2", "", "# C", "", "text3"] "B").2 6)
        (headingRange ["# A", "", "text1", "", "# B", "", "text2", "", "# C", "", "text3"] "B").2 = []) →
      findMatchLines ["# A", "", "text1", "", "# B", "", "text2", "", "# C", "", "text3"]
        "text2"
        (applyLineHint
          (headingRange ["# A", "", "text1", "", "# B", "", "text2", "", "# C", "", "text3"] "B").1
          (headingRange ["# A", "", "text1", "", "# B", "", "text2", "", "# C", "", "text3"] "B").2 6)
        (headingRange ["# A", "", "text1", "", "# B", "", "text2", "", "# C", "", "text3"] "B").2 = [] →
      performSearchAndHighlight
        ["# A", "", "text1", "", "# B", "", "text2", "", "# C", "", "text3"]
        "text2" "text2" "B" 6 none =
        searchFallbackDocWide
          ["# A", "", "text1", "", "# B", "", "text2", "", "# C", "", "text3"]
          "text2" none) ∧
    performSearchAndHighlight
      ["# A", "", "text1", "", "# B", "", "text2", "", "# C", "", "text3"]
      "text2" "text2" "B" 6 none = some 7 :=
  c4_search_order_amended
    ["# A", "", "text1", "", "# B", "", "text2", "", "# C", "", "text3"]
    "text2" "text2" "B" 6 none 7 (by decide)

/-!
Editor→preview gutter-click locator (`scrollToPreviewLine`,
editor-utils.ts 4–82), wired to Monaco gutter mouse-down events in
`EditorPane.handleEditorDidMount` with arguments `(lineNumber, clickY)`.
Rendered elements carry parsed `data-line`/`data-line-end` attributes
(`-1` when absent), a viewport-relative bounding-rect top and height, and
their `data-line` anchored descendants.
-/

/-- A rendered `[data-line]` element as read by `scrollToPreviewLine`. -/
structure PElem where
  line : Int
  lineEnd : Int
  top : Rat
  height : Rat
  subs : List (Int × Rat)
deriving DecidableEq, Repr

/-- The best-match loop body of `scrollToPreviewLine`: elements with
`data-line` `-1` are skipped; an exact match sets the best element (a later
exact match overwrites); a line below the target replaces the best only on
a strictly smaller distance; lines beyond the target are ignored.  The
accumulator keeps the best element together with its distance `minDiff`. -/
def stepBestMatch (target : Int) (acc : Option (PElem × Int)) (el : PElem) :
    Option (PElem × Int) :=
  if el.line = -1 then acc
  else if el.line = target then some (el, 0)
  else if el.line < target then
    let diff := target - el.line
    match acc with
    | none => some (el, diff)
    | some p => if diff < p.2 then some (el, diff) else acc
  else acc

/-- The full best-match search over the elements in document order. -/
def pickBestMatch (target : Int) (els : List PElem) : Option (PElem × Int) :=
  els.foldl (stepBestMatch target) none

/-- Result of a gutter-click locate: the final preview `scrollTop`
(`max 0 (scrollTop + scrollOffset)`), the flash timeout (ms), whether an
exact sub-element was used, the `data-line` of the flashed node, and the
viewport y-coordinate the chosen node is aligned to. -/
structure ScrollTarget where
  finalScrollTop : Rat
  flashFadeMs : Nat
  usedSub : Bool
  chosenLine : Int
  alignTop : Rat
deriving DecidableEq, Repr

/-- Embeds `scrollToPreviewLine`: `target := lineNumber - 1` (gutter lines
are 1-based, `data-line` 0-based); the best matching element is found; if
the target lies strictly inside the element's multi-line range, an exact
`[data-line=target]` descendant is preferred, else the position is linearly
interpolated within the element's rendered height; the pane scrolls to
`max 0 (scrollTop + (alignTop - clickY))` and the target node gets a
background flash reverted after 1000 ms. -/
def scrollToPreviewLine (lineNumber : Nat) (clickY scrollTop : Rat)
    (els : List PElem) : Option ScrollTarget :=
  let target : Int := (lineNumber : Int) - 1
  match pickBestMatch target els with
  | none => none
  | some p =>
    let best := p.1
    if best.lineEnd > best.line ∧ best.line < target ∧ target < best.lineEnd then
      match (best.subs.filter fun q => q.1 = target).head? with
      | some q =>
        some { finalScrollTop := max 0 (scrollTop + (q.2 - clickY)), flashFadeMs := 1000,
               usedSub := true, chosenLine := q.1, alignTop := q.2 }
      | none =>
        let percentage : Rat :=
          ((target - best.line : Int) : Rat) / ((best.lineEnd - best.line : Int) : Rat)
        let internalOffset := best.height * percentage
        some { finalScrollTop := max 0 (scrollTop + (best.top + internalOffset - clickY)),
               flashFadeMs := 1000, usedSub := false, chosenLine := best.line,
               alignTop := best.top + internalOffset }
    else
      some { finalScrollTop := max 0 (scrollTop + (best.top - clickY)),
             flashFadeMs := 1000, usedSub := false, chosenLine := best.line,
             alignTop := best.top }

lemma stepBestMatch_inv (target : Int) (acc : Option (PElem × Int)) (el : PElem)
    (hacc : ∀ q, acc = some q →
      q.1.line ≠ -1 ∧ q.1.line ≤ target ∧ q.2 = target - q.1.line) :
    (∀ q, stepBestMatch target acc el = some q →
      q.1.line ≠ -1 ∧ q.1.line ≤ target ∧ q.2 = target - q.1.line) ∧
    (el.line ≠ -1 → el.line ≤ target →
      ∃ q, stepBestMatch target acc el = some q) ∧
    (el.line ≠ -1 → el.line ≤ target →
      ∀ q, stepBestMatch target acc el = some q → el.line ≤ q.1.line) ∧
    (∀ q q', acc = some q → stepBestMatch target acc el = some q' →
      q.1.line ≤ q'.1.line) ∧
    (stepBestMatch target acc el = none → acc = none) := by
  by_cases h1 : el.line = -1
  · have hstep : stepBestMatch target acc el = acc := by
      simp only [stepBestMatch, if_pos h1]
    rw [hstep]
    refine ⟨hacc, fun hne _ => absurd h1 hne, fun hne _ => absurd h1 hne, ?_, fun h => h⟩
    intro q q' hq hq'
    rw [hq] at hq'
    cases hq'
    exact le_refl _
  · by_cases h2 : el.line = target
    · have hstep : stepBestMatch target acc el = some (el, 0) := by
        simp only [stepBestMatch, if_neg h1, if_pos h2]
      rw [hstep]
      refine ⟨?_, fun _ _ => ⟨(el, 0), rfl⟩, ?_, ?_, ?_⟩
      · intro q hq
        cases hq
        refine ⟨h1, le_of_eq h2, ?_⟩
        show (0 : Int) = target - el.line
        omega
      · intro _ _ q hq
        cases hq
        exact le_refl _
      · intro q q' hq hq'
        cases hq'
        show q.1.line ≤ el.line
        have := (hacc q hq).2.1
        omega
      · intro h
        simp at h
    · by_cases h3 : el.line < target
      · cases hq0 : acc with
        | none =>
          have hstep : stepBestMatch target none el = some (el, target - el.line) := by
            simp only [stepBestMatch, if_neg h1, if_neg h2, if_pos h3]
          rw [hstep]
          refine ⟨?_, fun _ _ => ⟨(el, target - el.line), rfl⟩, ?_, ?_, ?_⟩
          · intro q hq
            cases hq
            exact ⟨h1, le_of_lt h3, rfl⟩
          · intro _ _ q hq
            cases hq
            exact le_refl _
          · intro q q' hq _
            cases hq
          · intro h
            simp at h
        | some q0 =>
          obtain ⟨hq01, hq02, hq03⟩ := hacc q0 hq0
          by_cases h4 : target - el.line < q0.2
          · have hstep : stepBestMatch target (some q0) el =
                some (el, target - el.line) := by
              simp only [stepBestMatch, if_neg h1, if_neg h2, if_pos h3, if_pos h4]
            rw [hstep]
            refine ⟨?_, fun _ _ => ⟨(el, target - el.line), rfl⟩, ?_, ?_, ?_⟩
            · intro q hq
              cases hq
              exact ⟨h1, le_of_lt h3, rfl⟩
            · intro _ _ q hq
              cases hq
              exact le_refl _
            · intro q q' hq hq'
              cases hq
              cases hq'
              show q0.1.line ≤ el.line
              omega
            · intro h
              simp at h
          · have hstep : stepBestMatch target (some q0) el = some q0 := by
              simp only [stepBestMatch, if_neg h1, if_neg h2, if_pos h3, if_neg h4]
            rw [hstep]
            refine ⟨?_, fun _ _ => ⟨q0, rfl⟩, ?_, ?_, ?_⟩
            · intro q hq
              cases hq
              exact ⟨hq01, hq02, hq03⟩
            · intro _ _ q hq
              cases hq
              show el.line ≤ q0.1.line
              omega
            · intro q q' hq hq'
              cases hq
              cases hq'
              exact le_refl _
            · intro h
              simp at h
      · have h5 : ¬ el.line ≤ target := by omega
        have hstep : stepBestMatch target acc el = acc := by
          simp only [stepBestMatch, if_neg h1, if_neg h2, if_neg h3]
        rw [hstep]
        refine ⟨hacc, fun _ hle => absurd hle h5, fun _ hle => absurd hle h5, ?_,
          fun h => h⟩
        intro q q' hq hq'
        rw [hq] at hq'
        cases hq'
        exact le_refl _

lemma foldl_stepBestMatch_spec (target : Int) (els : List PElem) :
    ∀ acc : Option (PElem × Int),
      (∀ q, acc = some q →
        q.1.line ≠ -1 ∧ q.1.line ≤ target ∧ q.2 = target - q.1.line) →
      ∀ p, els.foldl (stepBestMatch target) acc = some p →
        (p.1.line ≠ -1 ∧ p.1.line ≤ target ∧ p.2 = target - p.1.line) ∧
        (∀ el ∈ els, el.line ≠ -1 → el.line ≤ target → el.line ≤ p.1.line) ∧
        (∀ q, acc = some q → q.1.line ≤ p.1.line) := by
  induction els with
  | nil =>
    intro acc hacc p hp
    rw [List.foldl_nil] at hp
    exact ⟨hacc p hp, by simp, fun q hq => by rw [hp] at hq; cases hq; exact le_refl _⟩
  | cons el els ih =>
    intro acc hacc p hp
    rw [List.foldl_cons] at hp
    obtain ⟨ha, hex, hlow, hmono, hnone⟩ := stepBestMatch_inv target acc el hacc
    obtain ⟨hp1, hp2, hp3⟩ := ih (stepBestMatch target acc el) ha p hp
    refine ⟨hp1, ?_, ?_⟩
    · intro e he hne hle
      rcases List.mem_cons.1 he with he | he
      · subst he
        obtain ⟨q, hq⟩ := hex hne hle
        exact le_trans (hlow hne hle q hq) (hp3 q hq)
      · exact hp2 e he hne hle
    · intro q hq
      cases hstep : stepBestMatch target acc el with
      | none => rw [hnone hstep] at hq; cases hq
      | some q' => exact le_trans (hmono q q' hq hstep) (hp3 q' hstep)

/-- Counterexample to C6 as stated: the claim asserts that the pane is
scrolled so the chosen element aligns with the click's vertical pixel
position for every gutter click, but the code clamps the scroll target at
`max 0 …`.  Clicking gutter line 1 at y = 200 with the pane at scrollTop 50
and the (only) anchored element already at viewport top 5 needs scroll
offset 5 − 200 = −195, clamped to a final scrollTop of 0; the element then
sits at viewport y = 5 − (0 − 50) = 55 ≠ 200, so it does not align. -/
theorem c6_counterexample_clamped_alignment :
    scrollToPreviewLine 1 200 50 [⟨0, -1, 5, 10, []⟩] =
      some ⟨0, 1000, false, 0, 5⟩ ∧
    (5 : Rat) - ((0 : Rat) - 50) ≠ 200 := by
  constructor
  · norm_num [scrollToPreviewLine, pickBestMatch, stepBestMatch, List.foldl]
  · norm_num

/-- Claim C6 (amended): for every gutter click `(lineNumber, clickY)` that
resolves: the chosen element's anchor is the closest one not exceeding the
clicked (0-based) line; the pane is scrolled toward aligning the target
with the click's vertical pixel position — exactly aligned whenever the
required scroll offset is non-negative, and clamped to a scroll offset of 0
(the document top) otherwise; when the clicked line falls strictly inside a
multi-line block with no exact sub-element carrying it, the aligned
position is linearly interpolated within the block's rendered height
proportionally to the line's fractional position in the block's source
range; and the target node's background flash is reverted after 1000 ms. -/
theorem c6_gutter_click_alignment (lineNumber : Nat) (clickY scrollTop : Rat)
    (els : List PElem) (r : ScrollTarget)
    (hres : scrollToPreviewLine lineNumber clickY scrollTop els = some r) :
    (∀ p, pickBestMatch ((lineNumber : Int) - 1) els = some p →
      (p.1.line ≠ -1 ∧ p.1.line ≤ (lineNumber : Int) - 1) ∧
      ∀ el ∈ els, el.line ≠ -1 → el.line ≤ (lineNumber : Int) - 1 →
        el.line ≤ p.1.line) ∧
    (0 ≤ scrollTop + (r.alignTop - clickY) →
      r.alignTop - (r.finalScrollTop - scrollTop) = clickY) ∧
    (scrollTop + (r.alignTop - clickY) < 0 → r.finalScrollTop = 0) ∧
    (∀ p, pickBestMatch ((lineNumber : Int) - 1) els = some p →
      p.1.line < (lineNumber : Int) - 1 → ((lineNumber : Int) - 1) < p.1.lineEnd →
      (p.1.subs.filter fun q => q.1 = (lineNumber : Int) - 1).head? = none →
      r.alignTop = p.1.top + p.1.height *
        ((((lineNumber : Int) - 1 - p.1.line : Int) : Rat) /
          ((p.1.lineEnd - p.1.line : Int) : Rat))) ∧
    r.flashFadeMs = 1000 := by
  have hclosest : ∀ p, pickBestMatch ((lineNumber : Int) - 1) els = some p →
      (p.1.line ≠ -1 ∧ p.1.line ≤ (lineNumber : Int) - 1) ∧
      ∀ el ∈ els, el.line ≠ -1 → el.line ≤ (lineNumber : Int) - 1 →
        el.line ≤ p.1.line := by
    intro p hp
    obtain ⟨h1, h2, _⟩ := foldl_stepBestMatch_spec ((lineNumber : Int) - 1) els none
      (fun q hq => by cases hq) p hp
    exact ⟨⟨h1.1, h1.2.1⟩, h2⟩
  simp only [scrollToPreviewLine] at hres
  cases hpick : pickBestMatch ((lineNumber : Int) - 1) els with
  | none => simp [hpick] at hres
  | some p =>
    simp only [hpick] at hres
    by_cases hcond : p.1.lineEnd > p.1.line ∧ p.1.line < (lineNumber : Int) - 1 ∧
        (lineNumber : Int) - 1 < p.1.lineEnd
    · rw [if_pos hcond] at hres
      cases hsub : (p.1.subs.filter fun q => q.1 = (lineNumber : Int) - 1).head? with
      | some q =>
        rw [hsub] at hres
        cases hres
        refine ⟨fun p' hp' => ?_, fun hpos => ?_, fun hneg => ?_,
          fun p' hp' _ _ hsub' => ?_, rfl⟩
        · cases hp'
          exact hclosest p hpick
        · dsimp only at hpos ⊢
          rw [max_eq_right hpos]
          ring
        · dsimp only at hneg ⊢
          rw [max_eq_left (le_of_lt hneg)]
        · cases hp'
          rw [hsub'] at hsub
          cases hsub
      | none =>
        rw [hsub] at hres
        cases hres
        refine ⟨fun p' hp' => ?_, fun hpos => ?_, fun hneg => ?_,
          fun p' hp' _ _ _ => ?_, rfl⟩
        · cases hp'
          exact hclosest p hpick
        · dsimp only at hpos ⊢
          rw [max_eq_right hpos]
          ring
        · dsimp only at hneg ⊢
          rw [max_eq_left (le_of_lt hneg)]
        · cases hp'
          rfl
    · rw [if_neg hcond] at hres
      cases hres
      refine ⟨fun p' hp' => ?_, fun hpos => ?_, fun hneg => ?_,
        fun p' hp' hlt1 hlt2 _ => ?_, rfl⟩
      · cases hp'
        exact hclosest p hpick
      · dsimp only at hpos ⊢
        rw [max_eq_right hpos]
        ring
      · dsimp only at hneg ⊢
        rw [max_eq_left (le_of_lt hneg)]
      · cases hp'
        exact absurd ⟨lt_trans hlt1 hlt2, hlt1, hlt2⟩ hcond

/-- Witness for C6: a concrete click on gutter line 4 (target line 3) with
elements anchored at lines 0–5 and 10–20; the click lands strictly inside
the first block, which has no exact sub-anchor, so the position is
interpolated (3/5 of the 50-px block height). -/
theorem c6_gutter_click_alignment_witness :
    (∀ p, pickBestMatch (((4 : Nat) : Int) - 1)
        [⟨0, 5, 100, 50, []⟩, ⟨10, 20, 300, 30, []⟩] = some p →
      (p.1.line ≠ -1 ∧ p.1.line ≤ ((4 : Nat) : Int) - 1) ∧
      ∀ el ∈ [(⟨0, 5, 100, 50, []⟩ : PElem), ⟨10, 20, 300, 30, []⟩],
        el.line ≠ -1 → el.line ≤ ((4 : Nat) : Int) - 1 → el.line ≤ p.1.line) ∧
    (0 ≤ (20 : Rat) + ((130 : Rat) - 40) →
      (130 : Rat) - ((110 : Rat) - 20) = 40) ∧
    ((20 : Rat) + ((130 : Rat) - 40) < 0 → (110 : Rat) = 0) ∧
    (∀ p, pickBestMatch (((4 : Nat) : Int) - 1)
        [⟨0, 5, 100, 50, []⟩, ⟨10, 20, 300, 30, []⟩] = some p →
      p.1.line < ((4 : Nat) : Int) - 1 → (((4 : Nat) : Int) - 1) < p.1.lineEnd →
      (p.1.subs.filter fun q => q.1 = ((4 : Nat) : Int) - 1).head? = none →
      (130 : Rat) = p.1.top + p.1.height *
        (((((4 : Nat) : Int) - 1 - p.1.line : Int) : Rat) /
          ((p.1.lineEnd - p.1.line : Int) : Rat))) ∧
    (1000 : Nat) = 1000 := by
  have h := c6_gutter_click_alignment 4 40 20
    [⟨0, 5, 100, 50, []⟩, ⟨10, 20, 300, 30, []⟩] ⟨110, 1000, false, 0, 130⟩
    (by norm_num [scrollToPreviewLine, pickBestMatch, stepBestMatch, List.foldl])
  exact h

end MdEditor
